import Mathlib

/-!
Verification development for the Cloudlint-AI YAML validation engine.

The TypeScript modules `src/lib/yaml-validator.ts`, `src/lib/yaml-ai-service.ts`
and `src/lib/yaml-json-converter.ts` are shallowly embedded below.  JavaScript
strings are modelled as Lean `String` (a wrapper around `List Char`), and the
JavaScript string primitives the code uses (`trim`, `trimStart`, `trimEnd`,
`split('\n')`, `includes`, `indexOf`, `startsWith`, `toLowerCase`, regex
helpers) are defined explicitly over the character list so that their JS
semantics — including the exact whitespace set and truthiness conventions —
are visible.  The external collaborators (the js-yaml parser `load`, the
serializer `dump`, `JSON.parse`, `JSON.stringify`) are taken as parameters of
the embedded functions: the engine only observes their outcome, which is
modelled by explicit outcome types below.
-/

/-- Character class used by the JS `trim` family and by the regex class `\s`:
space, tab, newline, carriage return, vertical tab, form feed, NBSP, BOM and
the Unicode line/paragraph separators. -/
def isJsWhitespace (c : Char) : Bool :=
  c == ' ' || c == '\t' || c == '\n' || c == '\r' || c == '\x0b' ||
  c == '\x0c' || c == '\u00A0' || c == '\uFEFF' || c == '\u2028' || c == '\u2029'

/-- JS `String.prototype.trimStart`. -/
def jsTrimStart (s : String) : String :=
  ⟨s.data.dropWhile isJsWhitespace⟩

/-- JS `String.prototype.trimEnd`. -/
def jsTrimEnd (s : String) : String :=
  ⟨(s.data.reverse.dropWhile isJsWhitespace).reverse⟩

/-- JS `String.prototype.trim`. -/
def jsTrim (s : String) : String :=
  jsTrimEnd (jsTrimStart s)

/-- Split a character list at every occurrence of the separator character,
keeping empty segments, as JS `split` does ("a\nb" gives two segments,
"" gives one empty segment). -/
def splitOnChar (sep : Char) : List Char → List (List Char)
  | [] => [[]]
  | c :: rest =>
    let r := splitOnChar sep rest
    if c == sep then [] :: r
    else
      match r with
      | h :: t => (c :: h) :: t
      | [] => [[c]]

/-- JS `text.split('\n')`. -/
def jsLines (s : String) : List String :=
  (splitOnChar '\n' s.data).map String.mk

/-- JS `lines.join('\n')`. -/
def jsJoinLines (lines : List String) : String :=
  ⟨List.intercalate ['\n'] (lines.map String.data)⟩

/-- JS `s.startsWith(pat)`. -/
def jsStartsWith (s pat : String) : Bool :=
  pat.data.isPrefixOf s.data

/-- Substring occurrence test over character lists (helper for
`strContains`). -/
def subOccurs (needle : List Char) : List Char → Bool
  | [] => needle.isEmpty
  | c :: rest => needle.isPrefixOf (c :: rest) || subOccurs needle rest

/-- JS `s.includes(pat)` (case-sensitive substring test). -/
def strContains (s pat : String) : Bool :=
  subOccurs pat.data s.data

/-- JS `s.toLowerCase()` (ASCII is all the engine needs). -/
def jsToLower (s : String) : String :=
  ⟨s.data.map Char.toLower⟩

/-- JS `s.indexOf(c)` for a character known to occur (0-based index of the
first occurrence; the embedded code only reads it after an `includes`
check). -/
def indexOfChar (l : List Char) (c : Char) : Nat :=
  l.findIdx (fun x => x == c)

/-- JS `line.replace(/\t/g, '  ')`: every tab becomes two spaces. -/
def replaceTabs (line : String) : String :=
  ⟨line.data.flatMap (fun c => if c == '\t' then [' ', ' '] else [c])⟩

/-- JS `'  '.repeat(k)`. -/
def twoSpaces (k : Nat) : String :=
  ⟨List.flatten (List.replicate k [' ', ' '])⟩

/-!  Data model shared by the three modules. -/

/-- Values produced by the external YAML/JSON parsers: the untyped JS tree.
`undefined` models JS `undefined` (what js-yaml `load` returns for an empty
document) as distinct from JS `null`. -/
inductive JsValue where
  | undefined
  | null
  | bool (b : Bool)
  | num (n : Int)
  | str (s : String)
  | arr (xs : List JsValue)
  | obj (fields : List (String × JsValue))

/-- Type guard `isRecord` from both modules: a non-null, non-array object.
JS `undefined` and `null` fail the guard, arrays fail the guard. -/
def isRecord : JsValue → Bool
  | .obj _ => true
  | _ => false

/-- JS `Object.keys` on the object modelled by an entry list: a JS object
cannot hold a duplicate own key (later assignments overwrite), so the key
list of the record is the entry keys with duplicates removed. -/
def jsKeys (fields : List (String × JsValue)) : List String :=
  (fields.map Prod.fst).dedup

/-- Keys of a parsed value when it is a record, `[]` otherwise
(JS `Object.keys(x)` on a non-object coerces and yields `[]` for the
scalar values the engine feeds it). -/
def jsObjectKeys : JsValue → List String
  | .obj fields => jsKeys fields
  | _ => []

/-- Position mark of a js-yaml exception (0-based, as js-yaml reports). -/
structure YamlMark where
  line : Nat
  column : Nat

/-- Shape of a js-yaml `YAMLException`: optional mark, optional reason and
the `Error.message` string. -/
structure YamlException where
  mark : Option YamlMark
  reason : Option String
  message : String

/-- Outcome of calling the external js-yaml `load`: a parsed value, a thrown
`YAMLException` (an `Error` carrying `reason` and `mark` properties), or any
other thrown value (`some m` when it is an `Error` with message `m`,
`none` for a non-`Error` throw). -/
inductive ParseOutcome where
  | ok (v : JsValue)
  | yamlErr (e : YamlException)
  | otherErr (message : Option String)

/-- Error taxonomy of `yaml-validator.ts` (`'syntax' | 'structure' |
'format'`).  The first literal is rendered `syn` and the second `struct` for
Lean's benefit. -/
inductive ErrorType where
  | syn
  | struct
  | format
deriving DecidableEq

/-- The `ValidationError` interface. -/
structure ValidationError where
  type : ErrorType
  line : Nat
  column : Nat
  message : String
  suggestion : Option String
deriving DecidableEq

/-- The `ValidationResult` interface. -/
structure ValidationResult where
  isValid : Bool
  errors : List ValidationError
  formatted : Option String
  originalYaml : String
deriving DecidableEq

/-- Suggestion kinds of `yaml-ai-service.ts` (`'formatting' | 'naming' |
'best-practice' | 'logical' | 'security'`). -/
inductive SuggestionType where
  | formatting
  | naming
  | bestPractice
  | logical
  | security
deriving DecidableEq

/-- Severities of `yaml-ai-service.ts` (`'info' | 'warning' |
'suggestion'`). -/
inductive Severity where
  | info
  | warning
  | suggestion
deriving DecidableEq

/-- The `AISuggestion` interface. -/
structure AISuggestion where
  type : SuggestionType
  severity : Severity
  line : Option Nat
  column : Option Nat
  message : String
  suggestion : String
  improvedCode : Option String
deriving DecidableEq

/-- The `AIAnalysisResult` interface.  The JS number `confidenceScore` is
modelled as a rational: every value the code computes is a rational with a
small denominator, exactly representable. -/
structure AIAnalysisResult where
  hasImprovements : Bool
  suggestions : List AISuggestion
  improvedYaml : Option String
  confidenceScore : ℚ
deriving DecidableEq

/-- The `ConversionResult` interface of `yaml-json-converter.ts`. -/
structure ConversionResult where
  success : Bool
  result : Option String
  error : Option String
deriving DecidableEq

/-- The `ConversionOptions` interface (all fields optional; defaults are
applied at each use site exactly as the `??` operators in the source do). -/
structure ConversionOptions where
  indent : Option Nat
  skipInvalid : Option Bool
  flowLevel : Option Int
  sortKeys : Option Bool

/-- Options record handed to the external js-yaml `dump` (the four
caller-controlled fields plus the constants the converter always passes). -/
structure DumpOptions where
  indent : Nat
  skipInvalid : Bool
  flowLevel : Int
  sortKeys : Bool
  lineWidth : Nat
  noRefs : Bool
  noCompatMode : Bool
  condenseFlow : Bool
  quotingType : String
  forceQuotes : Bool

/-!  Embedding of `src/lib/yaml-validator.ts`. -/

namespace YamlValidator

/-- Keyword table of `getSyntaxSuggestion` (yaml-validator.ts lines 189-203):
`reason.includes(...)` chains, first match wins, with the generic fallback.
JS `includes` is case-sensitive and so is this function. -/
def getSyntaxSuggestion (reason : String) : String :=
  if strContains reason "indent" then
    "Check your indentation - YAML uses spaces, not tabs"
  else if strContains reason "mapping" then
    "Check for missing colons (:) after keys"
  else if strContains reason "sequence" then
    "Check your list syntax - items should start with \"- \""
  else if strContains reason "quote" || strContains reason "string" then
    "Check for unmatched quotes or special characters in strings"
  else
    "Please check your YAML syntax"

/-- Per-line body of the `lines.forEach` loop in `checkStructuralIssues`
(yaml-validator.ts lines 99-138): tab check, trailing-whitespace check, then
the odd-indentation check on non-empty non-comment lines. -/
def lineChecks (lineNumber : Nat) (line : String) : List ValidationError :=
  (if line.data.contains '\t' then
    [⟨.format, lineNumber, indexOfChar line.data '\t' + 1,
      "YAML uses tabs instead of spaces for indentation",
      some "Replace tabs with spaces (2 or 4 spaces recommended)"⟩]
   else []) ++
  (if 0 < line.length ∧ line ≠ jsTrimEnd line then
    [⟨.format, lineNumber, (jsTrimEnd line).length + 1,
      "Line has trailing whitespace",
      some "Remove trailing spaces and tabs"⟩]
   else []) ++
  (if 0 < (jsTrim line).length ∧ ¬(jsStartsWith (jsTrim line) "#" = true) ∧
      0 < line.length - (jsTrimStart line).length ∧
      (line.length - (jsTrimStart line).length) % 2 ≠ 0 then
    [⟨.format, lineNumber, 1,
      "Inconsistent indentation (should be even number of spaces)",
      some "Use consistent indentation (2 or 4 spaces)"⟩]
   else [])

/-- All findings of the per-line scan, lines numbered from 1. -/
def lineIssuesOf (yamlText : String) : List ValidationError :=
  ((jsLines yamlText).enum.map (fun p => lineChecks (p.1 + 1) p.2)).flatten

/-- The `findKeyLineNumber` helper: first line whose trimmed text starts with
`key:`, else 1. -/
def findKeyLineNumber (key : String) (yamlText : String) : Nat :=
  match (jsLines yamlText).findIdx? (fun l => jsStartsWith (jsTrim l) (key ++ ":")) with
  | some i => i + 1
  | none => 1

/-- Loop body of `checkDuplicateKeys`: walk the key list with a `seen` set,
flagging a key the second time it is seen. -/
def dupLoop (yamlText : String) : List String → List String → List ValidationError
  | _, [] => []
  | seen, key :: rest =>
    (if key ∈ seen then
      [⟨.struct, findKeyLineNumber key yamlText, 1,
        "Duplicate key: \"" ++ key ++ "\"",
        some "Remove or rename the duplicate key"⟩]
     else []) ++ dupLoop yamlText (key :: seen) rest

/-- The `checkDuplicateKeys` function: iterates `Object.keys` of the parsed
record. -/
def checkDuplicateKeys (fields : List (String × JsValue)) (yamlText : String) :
    List ValidationError :=
  dupLoop yamlText [] (jsKeys fields)

/-- The `checkStructuralIssues` function: per-line findings followed by the
root-level duplicate-key findings (run only when the value passes the
`isRecord` guard). -/
def checkStructuralIssues (yamlText : String) (parsed : JsValue) :
    List ValidationError :=
  lineIssuesOf yamlText ++
  (match parsed with
   | .obj fields => checkDuplicateKeys fields yamlText
   | _ => [])

/-- The module-local `formatYAML` of yaml-validator.ts (lines 205-214):
re-parse, return `text.trim()` on success and the text unchanged when the
parser throws. -/
def formatYAML (load : String → ParseOutcome) (yamlText : String) : String :=
  match load yamlText with
  | .ok _ => jsTrim yamlText
  | _ => yamlText

/-- The error pushed for empty input. -/
def emptyInputError : ValidationError :=
  ⟨.struct, 1, 1, "YAML input is empty",
   some "Please enter some YAML content to validate"⟩

/-- Classification of a thrown `YAMLException` (yaml-validator.ts lines
62-71).  JS truthiness is preserved: a 0 mark coordinate and an empty
`reason` string are falsy and fall back to the defaults. -/
def syntaxErrorOf (e : YamlException) : ValidationError :=
  let reasonStr := e.reason.getD ""
  ⟨.syn,
   (match e.mark with
    | some m => if m.line ≠ 0 then m.line + 1 else 1
    | none => 1),
   (match e.mark with
    | some m => if m.column ≠ 0 then m.column + 1 else 1
    | none => 1),
   (if reasonStr ≠ "" then reasonStr else "YAML syntax error"),
   some (getSyntaxSuggestion reasonStr)⟩

/-- The exported `validateYAML` entry point, parameterized by the external
js-yaml `load` whose outcome it observes. -/
def validateYAML (load : String → ParseOutcome) (yamlText : String) :
    ValidationResult :=
  if jsTrim yamlText = "" then
    ⟨false, [emptyInputError], none, yamlText⟩
  else
    match load yamlText with
    | .ok parsed =>
      if checkStructuralIssues yamlText parsed = [] then
        ⟨true, [], some (formatYAML load yamlText), yamlText⟩
      else
        ⟨false, checkStructuralIssues yamlText parsed, none, yamlText⟩
    | .yamlErr e => ⟨false, [syntaxErrorOf e], none, yamlText⟩
    | .otherErr _ =>
      ⟨false, [⟨.syn, 1, 1, "Unknown YAML parsing error",
                some "Please check your YAML syntax"⟩], none, yamlText⟩

end YamlValidator

/-!  Embedding of `src/lib/yaml-ai-service.ts` (class `YAMLAIService`; the
`openaiApiKey` constructor argument is passed explicitly where a method reads
it). -/

namespace YAMLAIService

/-- JS truthiness of an optional string (absent and `""` are falsy). -/
def truthyOptStr : Option String → Bool
  | some s => !(s == "")
  | none => false

/-- Test of the camelCase heuristic regex `[a-z][A-Z]` against a key. -/
def camelPairExists : List Char → Bool
  | a :: b :: rest => (a.isLower && b.isUpper) || camelPairExists (b :: rest)
  | _ => false

/-- JS `key.replace(/[A-Z]/g, m => '-' + m.toLowerCase())`. -/
def kebabOf (key : String) : String :=
  ⟨key.data.flatMap (fun c => if c.isUpper then ['-', c.toLower] else [c])⟩

/-- JS `key.replace(/[A-Z]/g, m => '_' + m.toLowerCase())`. -/
def snakeOf (key : String) : String :=
  ⟨key.data.flatMap (fun c => if c.isUpper then ['_', c.toLower] else [c])⟩

/-- The `checkNamingConventions` traversal: for every entry of the record,
flag camelCase keys, then recurse into values that are themselves records,
extending the dotted path (the path only steers traversal; it does not
appear in any emitted text). -/
def checkNamingConventions : List (String × JsValue) → String → List AISuggestion
  | [], _ => []
  | (key, value) :: rest, path =>
    (if camelPairExists key.data then
      [⟨.naming, .suggestion, none, none,
        "camelCase key \"" ++ key ++ "\" detected",
        "Consider using kebab-case (\"" ++ kebabOf key ++ "\") or snake_case (\"" ++
          snakeOf key ++ "\") for YAML keys",
        some (kebabOf key ++ ": # or " ++ snakeOf key ++ ":")⟩]
     else []) ++
    (match value with
     | .obj inner =>
       checkNamingConventions inner (if path = "" then key else path ++ "." ++ key)
     | _ => []) ++
    checkNamingConventions rest path

/-- Word character for the regex word boundary `\b`. -/
def isJsWordChar (c : Char) : Bool :=
  c.isAlpha || c.isDigit || c == '_'

/-- Continuation of the URL regex after the scheme: `[^\s"']+` needs at least
one character that is not whitespace, `"` or `'`. -/
def urlContAt : List Char → Bool
  | c :: _ => !isJsWhitespace c && c != '"' && c != Char.ofNat 39
  | [] => false

/-- Match of `https?:\/\/[^\s"']+` anchored at the head of the list. -/
def urlAt (l : List Char) : Bool :=
  (if "http://".data.isPrefixOf l then urlContAt (l.drop 7) else false) ||
  (if "https://".data.isPrefixOf l then urlContAt (l.drop 8) else false)

/-- Existence of a match of an anchored matcher at any position. -/
def anyTail (f : List Char → Bool) : List Char → Bool
  | [] => f []
  | c :: rest => f (c :: rest) || anyTail f rest

/-- JS `urlRegex.test(yamlContent)` for `/https?:\/\/[^\s"']+/`. -/
def urlTest (s : String) : Bool :=
  anyTail urlAt s.data

/-- Octet chain of the IP regex `(?:\d{1,3}\.){3}\d{1,3}\b`: `n+1` octets
left to read, each 1-3 digits; the greedy `\d{1,3}` followed by `.` or by a
boundary succeeds exactly when the full digit run has length 1-3 and the
required character follows it, since backtracking into a digit cannot
produce a dot or a boundary. -/
def ipOctets : Nat → List Char → Bool
  | 0, l =>
    let ds := l.takeWhile Char.isDigit
    decide (1 ≤ ds.length ∧ ds.length ≤ 3) &&
      (match l.drop ds.length with
       | [] => true
       | c :: _ => !isJsWordChar c)
  | n + 1, l =>
    let ds := l.takeWhile Char.isDigit
    decide (1 ≤ ds.length ∧ ds.length ≤ 3) &&
      (match l.drop ds.length with
       | '.' :: rest => ipOctets n rest
       | _ => false)

/-- Scan for the IP regex with its leading `\b`: the flag records whether the
previous character (if any) was a non-word character, i.e. whether a word
boundary precedes the current position. -/
def ipScan : Bool → List Char → Bool
  | _, [] => false
  | bnd, c :: rest => (bnd && ipOctets 3 (c :: rest)) || ipScan (!isJsWordChar c) rest

/-- JS `ipRegex.test(yamlContent)` for `/\b(?:\d{1,3}\.){3}\d{1,3}\b/`. -/
def ipTest (s : String) : Bool :=
  ipScan true s.data

/-- The `checkBestPractices` method: missing version field, then hardcoded
URLs or IP literals (the record is the parsed root, the raw text is also
inspected). -/
def checkBestPractices (fields : List (String × JsValue)) (yamlContent : String) :
    List AISuggestion :=
  (if ¬((fields.map Prod.fst).contains "version" = true) ∧
      ¬((fields.map Prod.fst).contains "apiVersion" = true) then
    [⟨.bestPractice, .suggestion, none, none,
      "No version field found",
      "Consider adding a version field to track configuration schema versions",
      some ("version: \"1.0\"\n" ++ yamlContent)⟩]
   else []) ++
  (if urlTest yamlContent || ipTest yamlContent then
    [⟨.bestPractice, .info, none, none,
      "Hardcoded URLs or IP addresses detected",
      "Consider using environment variables for URLs and IP addresses to improve portability",
      none⟩]
   else [])

/-- Anchored match of `port:\s*"(\d+)"`: returns the captured digits and the
residue after the match.  Greedy `\s*` then `"` is equivalent to dropping
all whitespace, and greedy `\d+` then `"` to taking the whole digit run. -/
def matchPortQuote : List Char → Option (List Char × List Char)
  | 'p' :: 'o' :: 'r' :: 't' :: ':' :: rest =>
    match rest.dropWhile isJsWhitespace with
    | '"' :: rest2 =>
      let digits := rest2.takeWhile Char.isDigit
      if digits = [] then none
      else
        match rest2.drop digits.length with
        | '"' :: rest3 => some (digits, rest3)
        | _ => none
    | _ => none
  | _ => none

/-- Global-replace loop for `/port:\s*"(\d+)"/g` with replacement
`port: $1`; the fuel argument (initialized to the list length, an upper
bound on the number of steps since every step consumes at least one
character) makes the recursion structural. -/
def replacePortAux : Nat → List Char → List Char
  | _, [] => []
  | 0, l => l
  | fuel + 1, c :: rest =>
    match matchPortQuote (c :: rest) with
    | some (digits, after) => ("port: ".data ++ digits) ++ replacePortAux fuel after
    | none => c :: replacePortAux fuel rest

/-- JS `yamlContent.replace(/port:\s*"(\d+)"/g, 'port: $1')`. -/
def replacePortQuotes (s : String) : String :=
  ⟨replacePortAux s.data.length s.data⟩

/-- Case-insensitive anchored match of a (lowercase) literal pattern,
returning the actually matched characters (original case) and the
residue. -/
def ciPrefixOf : List Char → List Char → Option (List Char × List Char)
  | [], l => some ([], l)
  | _ :: _, [] => none
  | p :: ps, c :: cs =>
    if p.toLower == c.toLower then
      match ciPrefixOf ps cs with
      | some (actual, rest) => some (c :: actual, rest)
      | none => none
    else none

/-- Anchored match of `(password|secret):\s*"[^"]*"` with flag `i`:
alternatives tried left to right; returns the capture (the matched keyword in
its original case) and the residue after the closing quote. -/
def matchSecretPattern (l : List Char) : Option (List Char × List Char) :=
  let tryPat := fun (pat : List Char) =>
    match ciPrefixOf pat l with
    | some (actual, rest) =>
      match rest with
      | ':' :: rest1 =>
        match rest1.dropWhile isJsWhitespace with
        | '"' :: rest2 =>
          let body := rest2.takeWhile (fun c => c != '"')
          match rest2.drop body.length with
          | '"' :: rest3 => some (actual, rest3)
          | _ => none
        | _ => none
      | _ => none
    | none => none
  match tryPat "password".data with
  | some r => some r
  | none => tryPat "secret".data

/-- Global-replace loop for `/(password|secret):\s*"[^"]*"/gi` with
replacement `$1: ${$1_FROM_ENV}` (the braces are literal text in the
replacement); fueled like `replacePortAux`. -/
def replaceSecretAux : Nat → List Char → List Char
  | _, [] => []
  | 0, l => l
  | fuel + 1, c :: rest =>
    match matchSecretPattern (c :: rest) with
    | some (actual, after) =>
      (actual ++ ": $\x7b".data ++ actual ++ "_FROM_ENV\x7d".data) ++
        replaceSecretAux fuel after
    | none => c :: replaceSecretAux fuel rest

/-- JS `yamlContent.replace(/(password|secret):\s*"[^"]*"/gi,
'$1: $\x7b$1_FROM_ENV\x7d')`. -/
def replaceSecrets (s : String) : String :=
  ⟨replaceSecretAux s.data.length s.data⟩

/-- The `getMockAISuggestions` method: quoted-port heuristic, sensitive-data
heuristic, then the more-than-ten-keys heuristic. -/
def getMockAISuggestions (yamlContent : String) (parsed : JsValue) :
    List AISuggestion :=
  (if strContains yamlContent "port:" = true ∧
      strContains yamlContent "port: \"" = true then
    [⟨.logical, .warning, none, none,
      "Port number appears to be a string",
      "Port numbers should typically be integers for proper parsing",
      some (replacePortQuotes yamlContent)⟩]
   else []) ++
  (if strContains (jsToLower yamlContent) "password" = true ∨
      strContains (jsToLower yamlContent) "secret" = true then
    [⟨.security, .warning, none, none,
      "Potential sensitive data detected",
      "Consider using environment variables or secret management for sensitive values",
      some (replaceSecrets yamlContent)⟩]
   else []) ++
  (match parsed with
   | .obj fields =>
     if 10 < (jsKeys fields).length then
       [⟨.bestPractice, .suggestion, none, none,
         "Large configuration file detected",
         "Consider splitting large configurations into multiple files or using includes",
         none⟩]
     else []
   | _ => [])

/-- The `getAISuggestions` method: nothing without a (truthy) API key,
otherwise the mock suggestions (the demo stand-in for the remote provider;
its `catch` arm is dead since the mock cannot throw). -/
def getAISuggestions (apiKey : Option String) (yamlContent : String)
    (parsed : JsValue) : List AISuggestion :=
  if truthyOptStr apiKey then getMockAISuggestions yamlContent parsed else []

/-- Per-line body of the formatting scan in `getRuleBasedSuggestions`
(yaml-ai-service.ts lines 75-117): tab detection, inconsistent indentation
(note: no emptiness guard on the line, unlike the validator), then trailing
whitespace. -/
def ruleLineChecks (lineNumber : Nat) (line : String) : List AISuggestion :=
  (if line.data.contains '\t' then
    [⟨.formatting, .warning, some lineNumber,
      some (indexOfChar line.data '\t' + 1),
      "Tabs detected in YAML indentation",
      "Use spaces instead of tabs for consistent indentation",
      some (replaceTabs line)⟩]
   else []) ++
  (if 0 < line.length - (jsTrimStart line).length ∧
      (line.length - (jsTrimStart line).length) % 2 ≠ 0 ∧
      ¬(jsStartsWith (jsTrim line) "#" = true) then
    [⟨.formatting, .suggestion, some lineNumber, some 1,
      "Inconsistent indentation detected",
      "Use consistent 2-space or 4-space indentation throughout",
      some (twoSpaces ((line.length - (jsTrimStart line).length + 1) / 2) ++
            jsTrimStart line)⟩]
   else []) ++
  (if line ≠ jsTrimEnd line ∧ 0 < (jsTrim line).length then
    [⟨.formatting, .info, some lineNumber, some ((jsTrimEnd line).length + 1),
      "Trailing whitespace found",
      "Remove trailing spaces for cleaner code",
      some (jsTrimEnd line)⟩]
   else [])

/-- The `getRuleBasedSuggestions` method: the per-line scan, then (when the
parsed value passes the `isRecord` guard) naming conventions and best
practices. -/
def getRuleBasedSuggestions (yamlContent : String) (parsed : JsValue) :
    List AISuggestion :=
  ((jsLines yamlContent).enum.map (fun p => ruleLineChecks (p.1 + 1) p.2)).flatten ++
  (match parsed with
   | .obj fields =>
     checkNamingConventions fields "" ++ checkBestPractices fields yamlContent
   | _ => [])

/-- Loop body of `generateImprovedYaml` (yaml-ai-service.ts lines 249-263),
preserving JS truthiness: an absent or empty `improvedCode` is falsy, a
formatting suggestion fires the line path only when `line` is truthy
(present and nonzero), and the target slot `lines[line-1]` must be truthy
(in range and not the empty string) for the line to be replaced.  A
formatting suggestion that fails these guards changes nothing (the
`else if` handles only non-formatting kinds). -/
def applySuggestionStep (improved : String) (s : AISuggestion) : String :=
  if truthyOptStr s.improvedCode = true ∧ s.type = SuggestionType.formatting then
    match s.line with
    | some l =>
      if l ≠ 0 then
        let lines := jsLines improved
        match lines.get? (l - 1) with
        | some target =>
          if target ≠ "" then
            jsJoinLines (lines.set (l - 1) (s.improvedCode.getD ""))
          else improved
        | none => improved
      else improved
    | none => improved
  else if truthyOptStr s.improvedCode = true ∧ s.type ≠ SuggestionType.formatting then
    s.improvedCode.getD ""
  else improved

/-- The `generateImprovedYaml` method: fold the loop body over the
suggestions in emission order. -/
def generateImprovedYaml (original : String) (suggestions : List AISuggestion) :
    String :=
  suggestions.foldl applySuggestionStep original

/-- Weight table of `calculateConfidenceScore`.  The suggestion kind is a
closed five-value union in TypeScript, so the `|| 0.5` default for an
unknown kind is unreachable and the table is total. -/
def weight : SuggestionType → ℚ
  | .formatting => 0.8
  | .naming => 0.6
  | .bestPractice => 0.7
  | .logical => 0.9
  | .security => 0.95

/-- The `calculateConfidenceScore` method (yaml-ai-service.ts lines
271-286). -/
def calculateConfidenceScore (suggestions : List AISuggestion) : ℚ :=
  if suggestions.length = 0 then 1.0
  else
    let totalWeight := suggestions.foldl (fun sum s => sum + weight s.type) 0
    let maxPossibleWeight : ℚ := suggestions.length
    max 0.1 (1 - totalWeight / maxPossibleWeight)

/-- The `analyzeYAML` entry point, parameterized by the external js-yaml
`load` and the service's `openaiApiKey`.  Any throw from `load` lands in the
`catch` arm: no suggestions and confidence 0. -/
def analyzeYAML (load : String → ParseOutcome) (apiKey : Option String)
    (yamlContent : String) : AIAnalysisResult :=
  match load yamlContent with
  | .ok parsed =>
    let ruleBasedSuggestions := getRuleBasedSuggestions yamlContent parsed
    let aiSuggestions :=
      if truthyOptStr apiKey then getAISuggestions apiKey yamlContent parsed else []
    let allSuggestions := ruleBasedSuggestions ++ aiSuggestions
    ⟨decide (0 < allSuggestions.length), allSuggestions,
     (if 0 < allSuggestions.length then
       some (generateImprovedYaml yamlContent allSuggestions)
      else none),
     calculateConfidenceScore allSuggestions⟩
  | _ => ⟨false, [], none, 0⟩

end YAMLAIService

/-!  Embedding of `src/lib/yaml-json-converter.ts` (static class
`YAMLJSONConverter`).  The external serializers are parameters:
`jsonStringify` models `JSON.stringify(value, replacer, indent)` (total on
the acyclic trees the converter feeds it), `jsonParse` models `JSON.parse`
and `dump` models js-yaml `dump`; the two fallible ones return
`Except (Option String)`, the error carrying `some message` when the thrown
value is an `Error` and `none` otherwise. -/

namespace YAMLJSONConverter

/-- Message extraction of the `catch` arms:
`error instanceof Error ? error.message : fallback`. -/
def caughtMessage (fallback : String) : Option String → String
  | some m => m
  | none => fallback

/-- JS `Object.keys(parsed as object).sort()` used for the `sortKeys`
replacer: the record's own keys in default (string) sort order; a scalar
coerces to an object with no own enumerable keys. -/
def sortedKeysOf (parsed : JsValue) : List String :=
  (jsObjectKeys parsed).insertionSort (fun a b => a ≤ b)

/-- Dump options built by `jsonToYAML`/`formatYAML` from the caller's
options and the constants the source always passes. -/
def mkDumpOptions (options : ConversionOptions) : DumpOptions :=
  ⟨options.indent.getD 2, options.skipInvalid.getD false,
   options.flowLevel.getD (-1), options.sortKeys.getD false,
   80, false, false, false, "\"", false⟩

/-- The `yamlToJSON` static method (yaml-json-converter.ts lines 20-56). -/
def yamlToJSON (load : String → ParseOutcome)
    (jsonStringify : JsValue → Option (List String) → Nat → String)
    (yamlContent : String) (options : ConversionOptions) : ConversionResult :=
  if jsTrim yamlContent = "" then
    ⟨false, none, some "Input YAML is empty"⟩
  else
    match load yamlContent with
    | .ok .undefined => ⟨false, none, some "YAML content is empty or invalid"⟩
    | .ok parsed =>
      ⟨true,
       some (jsonStringify parsed
         (match options.sortKeys with
          | some true => some (sortedKeysOf parsed)
          | _ => none)
         (options.indent.getD 2)),
       none⟩
    | .yamlErr e => ⟨false, none, some e.message⟩
    | .otherErr m => ⟨false, none, some (caughtMessage "Unknown conversion error" m)⟩

/-- The `jsonToYAML` static method (yaml-json-converter.ts lines 61-97). -/
def jsonToYAML (jsonParse : String → Except (Option String) JsValue)
    (dump : DumpOptions → JsValue → Except (Option String) String)
    (jsonContent : String) (options : ConversionOptions) : ConversionResult :=
  if jsTrim jsonContent = "" then
    ⟨false, none, some "Input JSON is empty"⟩
  else
    match jsonParse jsonContent with
    | .ok parsed =>
      match dump (mkDumpOptions options) parsed with
      | .ok yamlString => ⟨true, some yamlString, none⟩
      | .error m => ⟨false, none, some (caughtMessage "Unknown conversion error" m)⟩
    | .error m => ⟨false, none, some (caughtMessage "Unknown conversion error" m)⟩

/-- The `formatYAML` static method (yaml-json-converter.ts lines 102-137):
parse and re-dump; an `undefined` parse is reported as empty-or-invalid, any
throw is caught with the format-specific fallback message. -/
def formatYAML (load : String → ParseOutcome)
    (dump : DumpOptions → JsValue → Except (Option String) String)
    (yamlContent : String) (options : ConversionOptions) : ConversionResult :=
  match load yamlContent with
  | .ok .undefined => ⟨false, none, some "YAML content is empty or invalid"⟩
  | .ok parsed =>
    match dump (mkDumpOptions options) parsed with
    | .ok formatted => ⟨true, some formatted, none⟩
    | .error m => ⟨false, none, some (caughtMessage "Failed to format YAML" m)⟩
  | .yamlErr e => ⟨false, none, some e.message⟩
  | .otherErr m => ⟨false, none, some (caughtMessage "Failed to format YAML" m)⟩

/-- The `minifyYAML` static method: `formatYAML` with indent 0, flow level 0
and `skipInvalid`. -/
def minifyYAML (load : String → ParseOutcome)
    (dump : DumpOptions → JsValue → Except (Option String) String)
    (yamlContent : String) : ConversionResult :=
  formatYAML load dump yamlContent ⟨some 0, some true, some 0, none⟩

end YAMLJSONConverter

/-!  Shared lemmas about the embedded definitions. -/

/-- Folding weight accumulation is summation of the mapped weights. -/
theorem foldl_add_weight (l : List AISuggestion) (init : ℚ) :
    l.foldl (fun sum s => sum + YAMLAIService.weight s.type) init =
      init + (l.map (fun s => YAMLAIService.weight s.type)).sum := by
  induction l generalizing init with
  | nil => simp
  | cons x xs ih => simp [List.foldl_cons, ih, List.sum_cons]; ring

/-- Every weight in the confidence table is nonnegative. -/
theorem weight_nonneg (t : SuggestionType) : 0 ≤ YAMLAIService.weight t := by
  cases t <;> norm_num [YAMLAIService.weight]

/-- The duplicate-key loop over a duplicate-free key list disjoint from the
seen set produces nothing. -/
theorem dupLoop_eq_nil (text : String) :
    ∀ (keys seen : List String), keys.Nodup → (∀ k ∈ keys, k ∉ seen) →
      YamlValidator.dupLoop text seen keys = [] := by
  intro keys
  induction keys with
  | nil => intro seen _ _; rfl
  | cons k ks ih =>
    intro seen hnd hdisj
    have hk : k ∉ seen := hdisj k (List.mem_cons_self k ks)
    rw [YamlValidator.dupLoop, if_neg hk]
    simp only [List.nil_append]
    exact ih (k :: seen) hnd.of_cons (by
      intro x hx
      simp only [List.mem_cons, not_or]
      exact ⟨fun hxk => (List.nodup_cons.mp hnd).1 (hxk ▸ hx),
             hdisj x (List.mem_cons_of_mem k hx)⟩)

/-- `checkDuplicateKeys` can never report anything: it iterates
`Object.keys` of the parsed record, whose keys are pairwise distinct by
construction of a JS object. -/
theorem checkDuplicateKeys_eq_nil (fields : List (String × JsValue))
    (text : String) : YamlValidator.checkDuplicateKeys fields text = [] :=
  dupLoop_eq_nil text (jsKeys fields) [] (List.nodup_dedup _)
    (fun _ _ h => (List.not_mem_nil _ h))

/-- Consequently the structural check is just the per-line scan. -/
theorem checkStructuralIssues_eq (text : String) (v : JsValue) :
    YamlValidator.checkStructuralIssues text v = YamlValidator.lineIssuesOf text := by
  unfold YamlValidator.checkStructuralIssues
  cases v <;> simp [checkDuplicateKeys_eq_nil]

/-- Every error emitted by the per-line checks has kind `format`. -/
theorem lineChecks_type_format (n : Nat) (line : String) :
    ∀ e ∈ YamlValidator.lineChecks n line, e.type = ErrorType.format := by
  intro e he
  unfold YamlValidator.lineChecks at he
  rcases List.mem_append.mp he with h | h
  · rcases List.mem_append.mp h with h | h <;> (split at h <;> simp_all)
  · split at h <;> simp_all

/-- Every error of the line scan has kind `format`. -/
theorem lineIssuesOf_type_format (text : String) :
    ∀ e ∈ YamlValidator.lineIssuesOf text, e.type = ErrorType.format := by
  intro e he
  unfold YamlValidator.lineIssuesOf at he
  rcases List.mem_flatten.mp he with ⟨part, hpart, hep⟩
  rcases List.mem_map.mp hpart with ⟨p, _, rfl⟩
  exact lineChecks_type_format _ _ e hep

/-- Mapping a pointwise-empty function and flattening yields nothing. -/
theorem map_flatten_nil {γ β : Type} (f : γ → List β) :
    ∀ (l : List γ), (∀ x ∈ l, f x = []) → (l.map f).flatten = [] := by
  intro l
  induction l with
  | nil => intro _; rfl
  | cons x xs ih =>
    intro h
    simp [h x (List.mem_cons_self x xs), ih (fun y hy => h y (List.mem_cons_of_mem x hy))]

/-!  Claim C1: the Improvement Synthesizer. -/

/-- Specification-side step function written from the amended wording of C1:
a suggestion with a (nonempty) replacement either rewrites one physical line
— expressed as take-the-prefix, insert the replacement, drop-through-the-line
— when its kind is Formatting and it addresses an existing, nonempty 1-based
line, or rewrites the whole working text when its kind is not Formatting; a
Formatting suggestion without an addressable line changes nothing. -/
def amendedApplyStep (text : String) (s : AISuggestion) : String :=
  match s.improvedCode with
  | none => text
  | some c =>
    if c = "" then text
    else if s.type = SuggestionType.formatting then
      match s.line with
      | none => text
      | some l =>
        if l = 0 then text
        else
          let lines := jsLines text
          match lines.get? (l - 1) with
          | some target =>
            if target = "" then text
            else jsJoinLines (lines.take (l - 1) ++ c :: lines.drop l)
          | none => text
    else c

/-- The loop body of the source agrees with the amended step function
pointwise; the line-replacement branch is the `set`/`take`/`drop`
identity. -/
theorem applyStep_eq (t : String) (s : AISuggestion) :
    YAMLAIService.applySuggestionStep t s = amendedApplyStep t s := by
  unfold YAMLAIService.applySuggestionStep amendedApplyStep
  cases hc : s.improvedCode with
  | none => simp [YAMLAIService.truthyOptStr]
  | some c =>
    by_cases hce : c = ""
    · subst hce; simp [YAMLAIService.truthyOptStr]
    · by_cases hty : s.type = SuggestionType.formatting
      · simp only [YAMLAIService.truthyOptStr, hty, hce, if_pos]
        cases hl : s.line with
        | none => simp [hce]
        | some l =>
          by_cases hl0 : l = 0
          · subst hl0; simp [hce]
          · simp only [hce, hl0, if_neg]
            cases hg : (jsLines t).get? (l - 1) with
            | none => simp [hce, hg]
            | some target =>
              by_cases htgt : target = ""
              · subst htgt; simp [hce, hg]
              · have hlen : l - 1 < (jsLines t).length := by
                  rcases List.get?_eq_some.mp hg with ⟨h, _⟩
                  exact h
                have hset := List.set_eq_take_cons_drop c hlen
                have hsub : l - 1 + 1 = l := Nat.succ_pred_eq_of_pos (Nat.pos_of_ne_zero hl0)
                simp [hce, hg, htgt, hset, hsub, hl0]
      · simp [YAMLAIService.truthyOptStr, hty, hce]

/-- Claim C1 (amended): `generateImprovedYaml` processes suggestions in
emission order; a suggestion with a nonempty `improvedCode` of Formatting
kind replaces the addressed single physical 1-based line only when the line
number is present (and nonzero) and the addressed line exists and is
nonempty, and otherwise changes nothing — in particular a Formatting
suggestion without a line is a no-op, not a whole-document replacement; a
suggestion of non-Formatting kind with `improvedCode` replaces the entire
working text, so a later whole-document replacement overwrites all earlier
edits. -/
theorem C1_synthesizer_amended (original : String) (suggestions : List AISuggestion) :
    YAMLAIService.generateImprovedYaml original suggestions =
      suggestions.foldl amendedApplyStep original := by
  unfold YAMLAIService.generateImprovedYaml
  have h : YAMLAIService.applySuggestionStep = amendedApplyStep :=
    funext fun t => funext fun s => applyStep_eq t s
  rw [h]

/-- Claim C1 as stated is false: a Formatting suggestion carrying
`improvedCode` but no line leaves the working text unchanged instead of
replacing the entire text with `improvedCode`. -/
theorem C1_counterexample :
    YAMLAIService.generateImprovedYaml "a"
      [⟨SuggestionType.formatting, Severity.warning, none, none, "m", "s", some "x"⟩] = "a" ∧
    ("a" : String) ≠ "x" :=
  ⟨rfl, by decide⟩

/-!  Claim C2: the confidence score. -/

/-- Claim C2: for a non-empty suggestion list the confidence score equals
the maximum of 0.1 and one minus the average of the per-kind weights
(Formatting 0.8, Naming 0.6, BestPractice 0.7, Logical 0.9, Security 0.95;
the suggestion kind is a closed union, so no other kind can occur), the
score of the empty list is exactly 1, and every non-empty score lies in
the interval from 0.1 to 1. -/
theorem C2_confidence_score (l : List AISuggestion) :
    (l = [] → YAMLAIService.calculateConfidenceScore l = 1) ∧
    (l ≠ [] →
      YAMLAIService.calculateConfidenceScore l =
        max 0.1 (1 - (l.map (fun s => YAMLAIService.weight s.type)).sum / (l.length : ℚ)) ∧
      (0.1 : ℚ) ≤ YAMLAIService.calculateConfidenceScore l ∧
      YAMLAIService.calculateConfidenceScore l ≤ 1) := by
  constructor
  · intro h
    subst h
    norm_num [YAMLAIService.calculateConfidenceScore]
  · intro h
    have hlen : l.length ≠ 0 := by simpa [List.length_eq_zero] using h
    have heq : YAMLAIService.calculateConfidenceScore l =
        max 0.1 (1 - (l.map (fun s => YAMLAIService.weight s.type)).sum / (l.length : ℚ)) := by
      unfold YAMLAIService.calculateConfidenceScore
      rw [if_neg hlen]
      rw [show l.foldl (fun sum s => sum + YAMLAIService.weight s.type) 0 =
            (l.map (fun s => YAMLAIService.weight s.type)).sum by
        simpa using foldl_add_weight l 0]
    refine ⟨heq, ?_, ?_⟩
    · rw [heq]; exact le_max_left _ _
    · rw [heq]
      have hsum : 0 ≤ (l.map (fun s => YAMLAIService.weight s.type)).sum := by
        apply List.sum_nonneg
        intro x hx
        rcases List.mem_map.mp hx with ⟨s, -, rfl⟩
        exact weight_nonneg s.type
      have hpos : (0 : ℚ) < (l.length : ℚ) :=
        Nat.cast_pos.mpr (Nat.pos_of_ne_zero hlen)
      have hdiv : 0 ≤ (l.map (fun s => YAMLAIService.weight s.type)).sum / (l.length : ℚ) :=
        div_nonneg hsum hpos.le
      apply max_le (by norm_num)
      linarith

/-- Witness for C2 at the one-element formatting list: the score is within
the claimed bounds. -/
theorem C2_witness :
    (0.1 : ℚ) ≤ YAMLAIService.calculateConfidenceScore
      [⟨SuggestionType.formatting, Severity.warning, none, none, "m", "s", none⟩] ∧
    YAMLAIService.calculateConfidenceScore
      [⟨SuggestionType.formatting, Severity.warning, none, none, "m", "s", none⟩] ≤ 1 :=
  ⟨((C2_confidence_score _).2 (by simp)).2.1, ((C2_confidence_score _).2 (by simp)).2.2⟩

/-!  Claim C3: the syntax-failure suggestion table. -/

/-- Modelled from the claim's wording of the spec keyword table: the same
keywords and texts, but matched case-insensitively (the keywords are
lowercase, so this lowercases the reason before the substring tests). -/
def getSyntaxSuggestionCI (reason : String) : String :=
  if strContains (jsToLower reason) "indent" then
    "Check your indentation - YAML uses spaces, not tabs"
  else if strContains (jsToLower reason) "mapping" then
    "Check for missing colons (:) after keys"
  else if strContains (jsToLower reason) "sequence" then
    "Check your list syntax - items should start with \"- \""
  else if strContains (jsToLower reason) "quote" || strContains (jsToLower reason) "string" then
    "Check for unmatched quotes or special characters in strings"
  else
    "Please check your YAML syntax"

/-- Priority-ordered keyword table of the amended C3 claim: each row is the
list of keywords that select its suggestion text. -/
def suggestionKeywordTable : List (List String × String) :=
  [(["indent"], "Check your indentation - YAML uses spaces, not tabs"),
   (["mapping"], "Check for missing colons (:) after keys"),
   (["sequence"], "Check your list syntax - items should start with \"- \""),
   (["quote", "string"], "Check for unmatched quotes or special characters in strings")]

/-- First-match-wins lookup in the keyword table using the case-sensitive
substring test, defaulting to the generic advice. -/
def firstMatchingSuggestion (reason : String) : String :=
  match suggestionKeywordTable.find?
      (fun row => row.1.any (fun kw => strContains reason kw)) with
  | some row => row.2
  | none => "Please check your YAML syntax"

/-- Claim C3 as stated is false: the reason "INDENT" contains the keyword
"indent" case-insensitively, so the claimed case-insensitive table yields
the indentation advice, but the code's case-sensitive `includes` chain
falls through to the generic default. -/
theorem C3_counterexample :
    YamlValidator.getSyntaxSuggestion "INDENT" = "Please check your YAML syntax" ∧
    getSyntaxSuggestionCI "INDENT" = "Check your indentation - YAML uses spaces, not tabs" ∧
    YamlValidator.getSyntaxSuggestion "INDENT" ≠ getSyntaxSuggestionCI "INDENT" :=
  ⟨rfl, rfl, by decide⟩

/-- Claim C3 (amended): for every reason string the classifier's suggestion
is the first-match-wins lookup in the keyword table under the
case-sensitive substring test ("indent", then "mapping", then "sequence",
then "quote" or "string"), with the generic check-your-YAML-syntax default
when no keyword matches. -/
theorem C3_suggestion_table_amended (reason : String) :
    YamlValidator.getSyntaxSuggestion reason = firstMatchingSuggestion reason := by
  unfold YamlValidator.getSyntaxSuggestion firstMatchingSuggestion suggestionKeywordTable
  by_cases h1 : strContains reason "indent" = true <;>
  by_cases h2 : strContains reason "mapping" = true <;>
  by_cases h3 : strContains reason "sequence" = true <;>
  by_cases h4 : strContains reason "quote" = true <;>
  by_cases h5 : strContains reason "string" = true <;>
  simp [h1, h2, h3, h4, h5, List.find?, List.any]

/-!  Claim C4: empty input is terminal. -/

/-- Claim C4: for every input whose trim is empty, `validateYAML` returns
`isValid = false` with exactly one error — kind Structure, line 1, column 1,
message "YAML input is empty" — and the result does not depend on the
parser at all (the statement holds for every `load`), so no parser,
structural-linter or semantic check influences it. -/
theorem C4_empty_input (load : String → ParseOutcome) (text : String)
    (h : jsTrim text = "") :
    YamlValidator.validateYAML load text =
      ⟨false, [YamlValidator.emptyInputError], none, text⟩ := by
  unfold YamlValidator.validateYAML
  rw [if_pos h]

/-- Witness for C4 at a whitespace-only input and an arbitrary parser
stub. -/
theorem C4_witness :
    jsTrim " \t\n" = "" ∧
    YamlValidator.validateYAML (fun _ => ParseOutcome.otherErr none) " \t\n" =
      ⟨false, [YamlValidator.emptyInputError], none, " \t\n"⟩ :=
  ⟨by decide, C4_empty_input (fun _ => ParseOutcome.otherErr none) " \t\n" (by decide)⟩

/-!  Claim C5: the tab scenario. -/

/-- Parser stub for the C5 scenario.  The spec's expected outcome (a
`Format` finding from the structural linter) presupposes that the parse of
the two-line document succeeds; this stub succeeds with the corresponding
record. -/
def parseC5 : String → ParseOutcome := fun _ =>
  .ok (.obj [("name", .str "John"), ("age", .num 30)])

/-- Claim C5 as stated is false: on `"name: John\n\tage: 30"` (with the
parse succeeding, as the claimed `Format` kind requires) the validator
reports two errors on line 2 — the tab error and an inconsistent-indentation
error (the tab also counts as leading whitespace) — not exactly one. -/
theorem C5_counterexample :
    (YamlValidator.validateYAML parseC5 "name: John\n\tage: 30").errors.length = 2 ∧
    ¬((YamlValidator.validateYAML parseC5 "name: John\n\tage: 30").errors.length = 1) :=
  ⟨by decide, by decide⟩

/-- Claim C5 (amended): for the input `"name: John\n\tage: 30"`, whenever
the parse succeeds, `validateYAML` returns `isValid = false` with exactly
two Format errors, both on line 2 at column 1: the
tabs-instead-of-spaces error and the inconsistent-indentation error, in
that order. -/
theorem C5_tab_scenario_amended (load : String → ParseOutcome) (v : JsValue)
    (h : load "name: John\n\tage: 30" = .ok v) :
    YamlValidator.validateYAML load "name: John\n\tage: 30" =
      ⟨false,
       [⟨.format, 2, 1, "YAML uses tabs instead of spaces for indentation",
         some "Replace tabs with spaces (2 or 4 spaces recommended)"⟩,
        ⟨.format, 2, 1, "Inconsistent indentation (should be even number of spaces)",
         some "Use consistent indentation (2 or 4 spaces)"⟩],
       none, "name: John\n\tage: 30"⟩ := by
  have hline : YamlValidator.lineIssuesOf "name: John\n\tage: 30" =
      [⟨.format, 2, 1, "YAML uses tabs instead of spaces for indentation",
        some "Replace tabs with spaces (2 or 4 spaces recommended)"⟩,
       ⟨.format, 2, 1, "Inconsistent indentation (should be even number of spaces)",
        some "Use consistent indentation (2 or 4 spaces)"⟩] := by decide
  unfold YamlValidator.validateYAML
  rw [if_neg (by decide : ¬(jsTrim "name: John\n\tage: 30" = "")), h]
  simp only [checkStructuralIssues_eq, hline]
  split
  · rename_i hcontra
    exact absurd hcontra (by decide)
  · rfl

/-- Witness for C5 at the scenario parser stub. -/
theorem C5_witness :
    YamlValidator.validateYAML parseC5 "name: John\n\tage: 30" =
      ⟨false,
       [⟨.format, 2, 1, "YAML uses tabs instead of spaces for indentation",
         some "Replace tabs with spaces (2 or 4 spaces recommended)"⟩,
        ⟨.format, 2, 1, "Inconsistent indentation (should be even number of spaces)",
         some "Use consistent indentation (2 or 4 spaces)"⟩],
       none, "name: John\n\tage: 30"⟩ :=
  C5_tab_scenario_amended parseC5 (.obj [("name", .str "John"), ("age", .num 30)]) rfl

/-!  Claim C6: the validity invariant. -/

/-- Claim C6: a `ValidationResult` with `isValid = true` carries no errors,
and `isValid` is true exactly when the validator's parse step ran and
succeeded (the input is nonempty after trimming, so the parser is reached,
and the parser returns a value) and the structural checks — the per-line
linter together with the duplicate-key check — produced zero findings. -/
theorem C6_isValid_iff (load : String → ParseOutcome) (text : String) :
    ((YamlValidator.validateYAML load text).isValid = true →
      (YamlValidator.validateYAML load text).errors = []) ∧
    ((YamlValidator.validateYAML load text).isValid = true ↔
      (¬jsTrim text = "" ∧ ∃ v, load text = .ok v ∧
        YamlValidator.checkStructuralIssues text v = [])) := by
  unfold YamlValidator.validateYAML
  by_cases ht : jsTrim text = ""
  · rw [if_pos ht]
    constructor
    · intro h
      simp at h
    · constructor
      · intro h
        simp at h
      · rintro ⟨hcontra, -⟩
        exact absurd ht hcontra
  · rw [if_neg ht]
    cases hl : load text with
    | ok v =>
      dsimp only
      by_cases hs : YamlValidator.checkStructuralIssues text v = []
      · rw [if_pos hs]
        constructor
        · intro _
          rfl
        · constructor
          · intro _
            exact ⟨ht, v, rfl, hs⟩
          · intro _
            rfl
      · rw [if_neg hs]
        constructor
        · intro h
          simp at h
        · constructor
          · intro h
            simp at h
          · rintro ⟨-, v2, hv2, hs2⟩
            cases ParseOutcome.ok.inj hv2
            exact absurd hs2 hs
    | yamlErr ex =>
      constructor
      · intro h
        simp at h
      · constructor
        · intro h
          simp at h
        · rintro ⟨-, v2, hv2, -⟩
          cases hv2
    | otherErr m =>
      constructor
      · intro h
        simp at h
      · constructor
        · intro h
          simp at h
        · rintro ⟨-, v2, hv2, -⟩
          cases hv2

/-- Witness for C6: a parser stub that accepts a small record, on which the
validator is valid with no errors. -/
theorem C6_witness :
    (YamlValidator.validateYAML (fun _ => .ok (.obj [("a", .num 1)])) "a: 1").isValid = true ∧
    (YamlValidator.validateYAML (fun _ => .ok (.obj [("a", .num 1)])) "a: 1").errors = [] := by
  have h := C6_isValid_iff (fun _ => .ok (.obj [("a", .num 1)])) "a: 1"
  have hvalid : (YamlValidator.validateYAML (fun _ => .ok (.obj [("a", .num 1)])) "a: 1").isValid = true :=
    h.2.mpr ⟨by decide, .obj [("a", .num 1)], rfl, by decide⟩
  exact ⟨hvalid, h.1 hvalid⟩

/-!  Claim C9: the duplicate-key branch is unreachable. -/

/-- Claim C9: `checkDuplicateKeys` returns the empty list for every parsed
record — its duplicate branch iterates the record's own keys, which are
pairwise distinct by construction of a JS object — and consequently no
`validateYAML` result ever contains a Structure error other than the
empty-input error (in particular never a "Duplicate key" message). -/
theorem C9_no_duplicate_key_errors :
    (∀ (fields : List (String × JsValue)) (text : String),
        YamlValidator.checkDuplicateKeys fields text = []) ∧
    (∀ (load : String → ParseOutcome) (text : String) (e : ValidationError),
        e ∈ (YamlValidator.validateYAML load text).errors →
        e.type = ErrorType.struct → e.message = "YAML input is empty") := by
  refine ⟨checkDuplicateKeys_eq_nil, ?_⟩
  intro load text e he hty
  unfold YamlValidator.validateYAML at he
  by_cases ht : jsTrim text = ""
  · rw [if_pos ht] at he
    simp only [List.mem_singleton] at he
    rw [he]
    rfl
  · rw [if_neg ht] at he
    cases hl : load text with
    | ok v =>
      rw [hl] at he
      simp only [checkStructuralIssues_eq] at he
      by_cases hs : YamlValidator.lineIssuesOf text = []
      · rw [if_pos hs] at he
        cases he
      · rw [if_neg hs] at he
        have hfmt := lineIssuesOf_type_format text e he
        rw [hfmt] at hty
        cases hty
    | yamlErr ex =>
      rw [hl] at he
      simp only [List.mem_singleton] at he
      rw [he] at hty
      cases hty
    | otherErr m =>
      rw [hl] at he
      simp only [List.mem_singleton] at he
      rw [he] at hty
      cases hty

/-- Witness for C9: a record with a repeated raw entry key yields no
duplicate finding, and the only Structure error the validator ever emits is
the empty-input one. -/
theorem C9_witness :
    YamlValidator.checkDuplicateKeys [("a", .null), ("a", .bool true)] "a: 1" = [] ∧
    YamlValidator.emptyInputError.message = "YAML input is empty" :=
  ⟨C9_no_duplicate_key_errors.1 [("a", .null), ("a", .bool true)] "a: 1",
   C9_no_duplicate_key_errors.2 (fun _ => .otherErr none) ""
     YamlValidator.emptyInputError (by decide) rfl⟩

/-!  Claim C7: conversion results are well-formed and total. -/

/-- Well-formedness of a `ConversionResult` as claimed: on success exactly
`result` is set, on failure exactly `error` is set. -/
def conversionWellFormed (r : ConversionResult) : Prop :=
  (r.success = true → (∃ s, r.result = some s) ∧ r.error = none) ∧
  (r.success = false → (∃ m, r.error = some m) ∧ r.result = none)

/-- Every `yamlToJSON` result is well-formed. -/
theorem wf_yamlToJSON (load : String → ParseOutcome)
    (jsonStringify : JsValue → Option (List String) → Nat → String)
    (text : String) (options : ConversionOptions) :
    conversionWellFormed (YAMLJSONConverter.yamlToJSON load jsonStringify text options) := by
  unfold YAMLJSONConverter.yamlToJSON
  split
  · simp [conversionWellFormed]
  · split <;> simp [conversionWellFormed]

/-- Every `jsonToYAML` result is well-formed. -/
theorem wf_jsonToYAML (jsonParse : String → Except (Option String) JsValue)
    (dump : DumpOptions → JsValue → Except (Option String) String)
    (text : String) (options : ConversionOptions) :
    conversionWellFormed (YAMLJSONConverter.jsonToYAML jsonParse dump text options) := by
  unfold YAMLJSONConverter.jsonToYAML
  split
  · simp [conversionWellFormed]
  · split
    · split <;> simp [conversionWellFormed]
    · simp [conversionWellFormed]

/-- Every `formatYAML` result is well-formed. -/
theorem wf_formatYAML (load : String → ParseOutcome)
    (dump : DumpOptions → JsValue → Except (Option String) String)
    (text : String) (options : ConversionOptions) :
    conversionWellFormed (YAMLJSONConverter.formatYAML load dump text options) := by
  unfold YAMLJSONConverter.formatYAML
  split
  · simp [conversionWellFormed]
  · split <;> simp [conversionWellFormed]
  · simp [conversionWellFormed]
  · simp [conversionWellFormed]

/-- Claim C7: every converter operation returns a `ConversionResult` with
exactly one of `result` (on success) and `error` (on failure) set; empty
input fails with an explanatory error, as does input the parser maps to
nothing (`undefined`); and — the functions being total Lean functions over
the observed collaborator outcomes, with every thrown collaborator fault

modelled and routed to an `error` result — no parser or serializer fault
escapes as an uncaught exception. -/
theorem C7_conversion_results (load : String → ParseOutcome)
    (dump : DumpOptions → JsValue → Except (Option String) String)
    (jsonParse : String → Except (Option String) JsValue)
    (jsonStringify : JsValue → Option (List String) → Nat → String)
    (text : String) (options : ConversionOptions) :
    conversionWellFormed (YAMLJSONConverter.yamlToJSON load jsonStringify text options) ∧
    conversionWellFormed (YAMLJSONConverter.jsonToYAML jsonParse dump text options) ∧
    conversionWellFormed (YAMLJSONConverter.formatYAML load dump text options) ∧
    conversionWellFormed (YAMLJSONConverter.minifyYAML load dump text) ∧
    (jsTrim text = "" →
      (YAMLJSONConverter.yamlToJSON load jsonStringify text options).success = false ∧
      (YAMLJSONConverter.jsonToYAML jsonParse dump text options).success = false) ∧
    (load text = .ok .undefined →
      (YAMLJSONConverter.yamlToJSON load jsonStringify text options).success = false ∧
      (YAMLJSONConverter.formatYAML load dump text options).success = false ∧
      (YAMLJSONConverter.minifyYAML load dump text).success = false) := by
  refine ⟨wf_yamlToJSON load jsonStringify text options,
          wf_jsonToYAML jsonParse dump text options,
          wf_formatYAML load dump text options,
          wf_formatYAML load dump text _, ?_, ?_⟩
  · intro h
    exact ⟨by simp [YAMLJSONConverter.yamlToJSON, h],
           by simp [YAMLJSONConverter.jsonToYAML, h]⟩
  · intro h
    refine ⟨?_, ?_, ?_⟩
    · by_cases ht : jsTrim text = "" <;>
        simp [YAMLJSONConverter.yamlToJSON, ht, h]
    · simp [YAMLJSONConverter.formatYAML, h]
    · simp [YAMLJSONConverter.minifyYAML, YAMLJSONConverter.formatYAML, h]

/-- Parser stub returning `undefined` (the js-yaml outcome for an empty
document). -/
def constUndefLoad : String → ParseOutcome := fun _ => .ok JsValue.undefined

/-- Serializer stubs for witnesses. -/
def stubJsonStringify : JsValue → Option (List String) → Nat → String :=
  fun _ _ _ => "null"

/-- JSON-parser stub for witnesses. -/
def stubJsonParse : String → Except (Option String) JsValue :=
  fun _ => .ok JsValue.null

/-- Dump stub for witnesses. -/
def stubDump : DumpOptions → JsValue → Except (Option String) String :=
  fun _ _ => .ok "x: 1\n"

/-- Witness for C7 at empty input and the undefined-returning parser. -/
theorem C7_witness :
    conversionWellFormed
      (YAMLJSONConverter.yamlToJSON constUndefLoad stubJsonStringify "" ⟨none, none, none, none⟩) ∧
    (YAMLJSONConverter.yamlToJSON constUndefLoad stubJsonStringify "" ⟨none, none, none, none⟩).success = false ∧
    (YAMLJSONConverter.formatYAML constUndefLoad stubDump "" ⟨none, none, none, none⟩).success = false :=
  ⟨(C7_conversion_results constUndefLoad stubDump stubJsonParse stubJsonStringify "" ⟨none, none, none, none⟩).1,
   ((C7_conversion_results constUndefLoad stubDump stubJsonParse stubJsonStringify "" ⟨none, none, none, none⟩).2.2.2.2.1 (by decide)).1,
   ((C7_conversion_results constUndefLoad stubDump stubJsonParse stubJsonStringify "" ⟨none, none, none, none⟩).2.2.2.2.2 rfl).2.1⟩

/-!  Claim C8: format idempotence. -/

/-- A successful parse-and-dump makes `formatYAML` succeed with the dumped
text. -/
theorem formatYAML_ok (load : String → ParseOutcome)
    (dump : DumpOptions → JsValue → Except (Option String) String)
    (text : String) (options : ConversionOptions) (v : JsValue) (s : String)
    (hparse : load text = .ok v) (hval : v ≠ JsValue.undefined)
    (hdump : dump (YAMLJSONConverter.mkDumpOptions options) v = .ok s) :
    YAMLJSONConverter.formatYAML load dump text options = ⟨true, some s, none⟩ := by
  unfold YAMLJSONConverter.formatYAML
  rw [hparse]
  cases v <;> first
    | exact absurd rfl hval
    | (dsimp only; rw [hdump])

/-- Claim C8: format is idempotent on any text that parses successfully (to
an actual value), granted the round-trip contract of the external parser
and serializer that the spec assumes: re-parsing the dumped text returns
the same value.  Under that contract `format(text)` succeeds with the
dumped string and formatting that string returns the same result. -/
theorem C8_format_idempotent (load : String → ParseOutcome)
    (dump : DumpOptions → JsValue → Except (Option String) String)
    (text : String) (options : ConversionOptions) (v : JsValue) (s : String)
    (hparse : load text = .ok v) (hval : v ≠ JsValue.undefined)
    (hdump : dump (YAMLJSONConverter.mkDumpOptions options) v = .ok s)
    (hrt : load s = .ok v) :
    YAMLJSONConverter.formatYAML load dump text options = ⟨true, some s, none⟩ ∧
    YAMLJSONConverter.formatYAML load dump s options =
      YAMLJSONConverter.formatYAML load dump text options := by
  have h1 := formatYAML_ok load dump text options v s hparse hval hdump
  have h2 := formatYAML_ok load dump s options v s hrt hval hdump
  exact ⟨h1, h2.trans h1.symm⟩

/-- Parser stub for the C8 witness: both the original text and its
formatted output parse to the same one-entry record. -/
def c8Load : String → ParseOutcome := fun t =>
  if t = "a: 1" ∨ t = "a: 1\n" then .ok (.obj [("a", .num 1)]) else .ok .undefined

/-- Dump stub for the C8 witness. -/
def c8Dump : DumpOptions → JsValue → Except (Option String) String :=
  fun _ _ => .ok "a: 1\n"

/-- Witness for C8 at a concrete parse/dump pair satisfying the round-trip
contract. -/
theorem C8_witness :
    YAMLJSONConverter.formatYAML c8Load c8Dump "a: 1" ⟨none, none, none, none⟩ =
      ⟨true, some "a: 1\n", none⟩ ∧
    YAMLJSONConverter.formatYAML c8Load c8Dump "a: 1\n" ⟨none, none, none, none⟩ =
      YAMLJSONConverter.formatYAML c8Load c8Dump "a: 1" ⟨none, none, none, none⟩ :=
  C8_format_idempotent c8Load c8Dump "a: 1" ⟨none, none, none, none⟩
    (.obj [("a", .num 1)]) "a: 1\n"
    (by simp [c8Load]) (fun h => JsValue.noConfusion h) rfl (by simp [c8Load])

/-!  Claim C10: blank input in the AI analyzer. -/

/-- A line that is all whitespace without tabs and with even length produces
no rule-based formatting suggestion: the tab check needs a tab, the
trailing-whitespace check needs nonblank content, and the indentation check
needs an odd leading-whitespace count. -/
theorem ruleLineChecks_nil (n : Nat) (line : String)
    (h1 : jsTrim line = "") (h2 : line.data.contains '\t' = false)
    (h3 : (line.length - (jsTrimStart line).length) % 2 = 0) :
    YAMLAIService.ruleLineChecks n line = [] := by
  unfold YAMLAIService.ruleLineChecks
  have h2m : '\t' ∉ line.data := by simpa using h2
  simp [h1, h2m, h3]

/-- Rule-based suggestions vanish on input whose every line is blank,
tab-free and of even length, when the parsed value is not a record. -/
theorem getRuleBased_nil (text : String) (v : JsValue)
    (hrec : isRecord v = false)
    (hlines : ∀ line ∈ jsLines text,
      jsTrim line = "" ∧ line.data.contains '\t' = false ∧
      (line.length - (jsTrimStart line).length) % 2 = 0) :
    YAMLAIService.getRuleBasedSuggestions text v = [] := by
  unfold YAMLAIService.getRuleBasedSuggestions
  have hscan : ((jsLines text).enum.map
      (fun p => YAMLAIService.ruleLineChecks (p.1 + 1) p.2)).flatten = [] := by
    apply map_flatten_nil
    intro p hp
    have hmem : p.2 ∈ jsLines text := List.get?_mem (List.mem_enum_iff_get?.mp hp)
    obtain ⟨ha, hb, hc⟩ := hlines p.2 hmem
    exact ruleLineChecks_nil (p.1 + 1) p.2 ha hb hc
  rw [hscan]
  cases v <;> first
    | rfl
    | exact absurd hrec (by simp [isRecord])

/-- The mock advisory layer contributes nothing when its three textual
triggers are absent and the value is not a record. -/
theorem getMock_nil (text : String) (v : JsValue)
    (hrec : isRecord v = false)
    (hport : strContains text "port:" = false)
    (hpw : strContains (jsToLower text) "password" = false)
    (hsec : strContains (jsToLower text) "secret" = false) :
    YAMLAIService.getMockAISuggestions text v = [] := by
  unfold YAMLAIService.getMockAISuggestions
  cases v with
  | obj fields => exact absurd hrec (by simp [isRecord])
  | undefined => simp [hport, hpw, hsec]
  | null => simp [hport, hpw, hsec]
  | bool b => simp [hport, hpw, hsec]
  | num n => simp [hport, hpw, hsec]
  | str s => simp [hport, hpw, hsec]
  | arr xs => simp [hport, hpw, hsec]

/-- Claim C10 (amended): for every input whose trim is empty, when the parse
succeeds (js-yaml returns `undefined` — in particular not a record — for a
blank document, so the analyzer does not take its invalid-YAML branch) and
additionally no line of the input contains a tab and every line has an even
number of (necessarily whitespace) characters, `analyzeYAML` returns
`hasImprovements = false`, no suggestions, no improved text and confidence
exactly 1 — not the 0 of the parse-failure branch.  The substring
hypotheses silence the mock advisory triggers and hold for every blank
input (an all-whitespace text contains no letter). -/
theorem C10_blank_input_amended (load : String → ParseOutcome)
    (apiKey : Option String) (text : String) (v : JsValue)
    (hparse : load text = .ok v) (hrec : isRecord v = false)
    (htrim : jsTrim text = "")
    (hlines : ∀ line ∈ jsLines text,
      jsTrim line = "" ∧ line.data.contains '\t' = false ∧
      (line.length - (jsTrimStart line).length) % 2 = 0)
    (hport : strContains text "port:" = false)
    (hpw : strContains (jsToLower text) "password" = false)
    (hsec : strContains (jsToLower text) "secret" = false) :
    YAMLAIService.analyzeYAML load apiKey text = ⟨false, [], none, 1⟩ := by
  have hrule := getRuleBased_nil text v hrec hlines
  have hai : YAMLAIService.getAISuggestions apiKey text v = [] := by
    unfold YAMLAIService.getAISuggestions
    cases hk : YAMLAIService.truthyOptStr apiKey
    · simp
    · simp [getMock_nil text v hrec hport hpw hsec]
  unfold YAMLAIService.analyzeYAML
  rw [hparse]
  simp only [hrule, hai]
  norm_num [YAMLAIService.calculateConfidenceScore]

/-- Witness for C10 at the genuinely empty input and the stub returning
`undefined`. -/
theorem C10_witness :
    YAMLAIService.analyzeYAML constUndefLoad none "" = ⟨false, [], none, 1⟩ :=
  C10_blank_input_amended constUndefLoad none "" JsValue.undefined rfl rfl
    (by decide) (by decide) (by decide) (by decide) (by decide)

/-- Claim C10 as stated is false: the single-space input trims to empty and
parses to `undefined`, yet the analyzer's indentation check (which, unlike
the validator's, has no nonblank guard) fires on the one-space line, so the
result has `hasImprovements = true`, a nonempty suggestion list and a
confidence different from 1. -/
theorem C10_counterexample :
    jsTrim " " = "" ∧
    (YAMLAIService.analyzeYAML constUndefLoad none " ").hasImprovements = true ∧
    (YAMLAIService.analyzeYAML constUndefLoad none " ").suggestions ≠ [] ∧
    (YAMLAIService.analyzeYAML constUndefLoad none " ").improvedYaml = some "  " :=
  ⟨by decide, by decide, by decide, by decide⟩
